import Mathlib

/-!
Shallow embedding of the Jetstream takehome backend (`src/backend/main.py`).

The external Guardrails detectors (`pii_guard.validate`, `secrets_guard.validate`)
are modelled as oracles of type `Detector`: on a given input text a call either
returns normally (carrying the "any validation summary failed" flag and the
optional `validated_output` string) or raises an exception with a message.
Persisted state (the two JSON files) is modelled as a `Store` value threaded
explicitly through the handlers.
-/

namespace Jetstream

/-- Outcome of one call to a guard's `validate`: a normal return (with the
`any(s.validator_status == "fail")` flag and `validated_output`), or a raised
exception carrying its message. -/
inductive GuardOutcome where
  | ok (failed : Bool) (validated_output : Option String)
  | exn (msg : String)
deriving DecidableEq

/-- A detector oracle: the behaviour of `guard.validate` on each input text. -/
def Detector : Type := String → GuardOutcome

/-- Python `a or b` where `a` is an optional string: `None` and `""` are falsy. -/
def pyOrStr (a : Option String) (b : String) : String :=
  match a with
  | some s => if s = "" then b else s
  | none => b

/-- A character matched by the regex class `[A-Z_]`. -/
def isTagChar (c : Char) : Bool := c.isUpper || c = '_'

/-- Scanner for `re.findall(r'<([A-Z_]+)>', s)`: leftmost non-overlapping
matches of `<[A-Z_]+>`, returning the captured groups in order. The fuel
argument makes the recursion structural; every step consumes at least one
character, so fuel equal to the input length never runs out. -/
def findTagsAux : Nat → List Char → List String
  | 0, _ => []
  | _, [] => []
  | fuel + 1, c :: rest =>
    if c = '<' then
      let tok := rest.takeWhile isTagChar
      match rest.dropWhile isTagChar with
      | '>' :: rest2 =>
        if tok.isEmpty then findTagsAux fuel rest
        else String.mk tok :: findTagsAux fuel rest2
      | _ => findTagsAux fuel rest
    else findTagsAux fuel rest

/-- All captured groups of `re.findall(r'<([A-Z_]+)>', s)` over a character
list. -/
def findTags (l : List Char) : List String := findTagsAux l.length l

/-- `extract_pii_categories` from `main.py`: find the bracketed uppercase tags
in the sanitized output and deduplicate them (`list(set(...))`). -/
def extract_pii_categories (sanitized : String) : List String :=
  (findTags sanitized.data).dedup

/-- Response schema of `POST /api/validate`. -/
structure ValidateResponse where
  has_pii : Bool
  has_secrets : Bool
  sanitized : String
  detections : List String
deriving DecidableEq

/-- The PII block of `validate_text` (`main.py` lines 131-140): returns the
`has_pii` flag, the sanitized text after this stage, and the detections
contributed by this stage. -/
def piiStage (pii : Detector) (text : String) : Bool × String × List String :=
  match pii text with
  | .ok failed vo =>
    if failed then
      let s := pyOrStr vo text
      let cats := extract_pii_categories s
      (true, s, if cats.isEmpty then ["PII"] else cats)
    else (false, text, [])
  | .exn e => (true, text, ["PII error: " ++ e])

/-- The secrets block of `validate_text` (`main.py` lines 142-150), applied to
the sanitized text produced by the PII stage. -/
def secretsStage (secrets : Detector) (sanitized : String) : Bool × String × List String :=
  match secrets sanitized with
  | .ok failed vo =>
    if failed then (true, pyOrStr vo sanitized, ["SECRETS"])
    else (false, sanitized, [])
  | .exn e => (true, sanitized, ["Secrets error: " ++ e])

/-- `validate_text` from `main.py` (the `POST /api/validate` handler). -/
def validate_text (pii secrets : Detector) (text : String) : ValidateResponse :=
  let p := piiStage pii text
  let s := secretsStage secrets p.2.1
  ⟨p.1, s.1, s.2.1, p.2.2 ++ s.2.2⟩

/-- The PII-stage contribution inside `create_event` (`main.py` lines
214-217): when the PII check failed, the categories extracted from
`validated_output or ""`, with the generic fallback. -/
def piiCreateTags (failed : Bool) (vo : Option String) : List String :=
  if failed then
    let cats := extract_pii_categories (vo.getD "")
    if cats.isEmpty then ["PII"] else cats
  else []

/-- The `guardrails_detections` computation inside `create_event`
(`main.py` lines 211-223): both detectors are invoked on the original
`data.message` inside a single `try` whose exception handler is `pass`. -/
def create_event_detections (pii secrets : Detector) (message : Option String) :
    List String :=
  match message with
  | none => []
  | some m =>
    if m = "" then []
    else
      match pii m with
      | .exn _ => []
      | .ok failed vo =>
        let d1 := piiCreateTags failed vo
        match secrets m with
        | .exn _ => d1
        | .ok sfailed _ => d1 ++ (if sfailed then ["SECRETS"] else [])

/-- A caller-supplied finding (`Detection` schema in `main.py`). -/
structure Detection where
  type : String
  masked : Option String
deriving DecidableEq

/-- An event record as stored in `events.json`. Fields the code reads with
`.get` (and `updated_at`, absent until the first update) are optional. -/
structure EventRec where
  id : Nat
  url : String
  domain : String
  content_type : String
  detection_type : String
  summary : String
  detections : List Detection
  guardrails_detections : List String
  content_hash : Option String
  message : Option String
  status : String
  created_at : Option String
  updated_at : Option String
deriving DecidableEq

/-- Request body of `POST /api/events` (`EventCreate` schema in `main.py`). -/
structure EventCreate where
  url : String
  domain : String
  content_type : String
  detection_type : String
  summary : String
  detections : List Detection
  content_hash : Option String
  message : Option String
deriving DecidableEq

/-- The persisted state: the contents of `events.json` and `approvals.json`. -/
structure Store where
  events : List EventRec
  approvals : List String
deriving DecidableEq

/-- `create_event` from `main.py`: computes `guardrails_detections`, builds the
event with `id = len(events) + 1` and `status = "pending"`, appends it and
persists. `now` is the `datetime.now().isoformat()` timestamp. -/
def create_event (pii secrets : Detector) (now : String) (s : Store)
    (data : EventCreate) : Store × EventRec :=
  let event : EventRec :=
    { id := s.events.length + 1
      url := data.url
      domain := data.domain
      content_type := data.content_type
      detection_type := data.detection_type
      summary := data.summary
      detections := data.detections
      guardrails_detections := create_event_detections pii secrets data.message
      content_hash := data.content_hash
      message := data.message
      status := "pending"
      created_at := some now
      updated_at := none }
  (⟨s.events ++ [event], s.approvals⟩, event)

/-- Python slice index adjustment: a negative index is offset by the length
(clamped at 0), a non-negative one is clamped at the length. -/
def pyAdjustIndex (n : Nat) (i : Int) : Nat :=
  if i < 0 then (i + n).toNat else min i.toNat n

/-- Python list slice `l[start:stop]` (step 1). -/
def pySlice {α : Type} (l : List α) (start stop : Int) : List α :=
  let a := pyAdjustIndex l.length start
  let b := pyAdjustIndex l.length stop
  (l.drop a).take (b - a)

/-- The sort key of `list_events`: `x.get("created_at", "")`. -/
def createdKey (e : EventRec) : String := e.created_at.getD ""

/-- Lexicographic order on code-point sequences, as Python compares strings. -/
def charListLe : List Char → List Char → Bool
  | [], _ => true
  | _ :: _, [] => false
  | a :: as, b :: bs =>
    if a.toNat < b.toNat then true
    else if b.toNat < a.toNat then false
    else charListLe as bs

/-- Python string `<=`: lexicographic comparison by Unicode code point. -/
def strLe (a b : String) : Bool := charListLe a.data b.data

theorem charListLe_total : ∀ x y : List Char, charListLe x y = true ∨ charListLe y x = true
  | [], _ => Or.inl rfl
  | _ :: _, [] => Or.inr rfl
  | a :: as, b :: bs => by
    by_cases hab : a.toNat < b.toNat
    · exact Or.inl (by simp [charListLe, hab])
    · by_cases hba : b.toNat < a.toNat
      · exact Or.inr (by simp [charListLe, hba])
      · rcases charListLe_total as bs with h | h
        · exact Or.inl (by simp [charListLe, hab, hba, h])
        · exact Or.inr (by simp [charListLe, hab, hba, h])

theorem charListLe_trans : ∀ x y z : List Char,
    charListLe x y = true → charListLe y z = true → charListLe x z = true
  | [], _, _ => fun _ _ => rfl
  | a :: as, [], _ => fun h _ => by simp [charListLe] at h
  | _ :: _, _ :: _, [] => fun _ h => by simp [charListLe] at h
  | a :: as, b :: bs, c :: cs => fun h1 h2 => by
    simp only [charListLe] at h1 h2 ⊢
    by_cases hab : a.toNat < b.toNat
    · by_cases hbc : b.toNat < c.toNat
      · rw [if_pos (show a.toNat < c.toNat by omega)]
      · rw [if_neg hbc] at h2
        by_cases hcb : c.toNat < b.toNat
        · rw [if_pos hcb] at h2; simp at h2
        · rw [if_pos (show a.toNat < c.toNat by omega)]
    · rw [if_neg hab] at h1
      by_cases hba : b.toNat < a.toNat
      · rw [if_pos hba] at h1; simp at h1
      · rw [if_neg hba] at h1
        by_cases hbc : b.toNat < c.toNat
        · rw [if_pos (show a.toNat < c.toNat by omega)]
        · rw [if_neg hbc] at h2
          by_cases hcb : c.toNat < b.toNat
          · rw [if_pos hcb] at h2; simp at h2
          · rw [if_neg hcb] at h2
            rw [if_neg (show ¬a.toNat < c.toNat by omega),
              if_neg (show ¬c.toNat < a.toNat by omega)]
            exact charListLe_trans as bs cs h1 h2

/-- Comparison used by `sorted(..., key=..., reverse=True)`: `a` comes no
later than `b` in the descending order when `b`'s key is `≤` `a`'s key. -/
def eventLater (a b : EventRec) : Prop := strLe (createdKey b) (createdKey a) = true

instance : DecidableRel eventLater := fun a b =>
  inferInstanceAs (Decidable (strLe (createdKey b) (createdKey a) = true))

instance : IsTotal EventRec eventLater :=
  ⟨fun a b => charListLe_total (createdKey b).data (createdKey a).data⟩

instance : IsTrans EventRec eventLater :=
  ⟨fun _ _ _ h1 h2 => charListLe_trans _ _ _ h2 h1⟩

/-- `sorted(events, key=lambda x: x.get("created_at", ""), reverse=True)`:
a stable descending sort, modelled by insertion sort (Python's sort is
stable, and any two stable sorts for the same total preorder agree). -/
def sortEvents (l : List EventRec) : List EventRec := List.insertionSort eventLater l

/-- The optional exact-status filter of `list_events`; `if status:` treats
`None` and `""` as falsy (no filtering). -/
def statusFilter (status : Option String) (events : List EventRec) : List EventRec :=
  match status with
  | some st => if st = "" then events else events.filter (fun e => e.status = st)
  | none => events

/-- Response of `GET /api/events`. -/
structure ListEventsResponse where
  items : List EventRec
  total : Nat
  page : Int
deriving DecidableEq

/-- `list_events` from `main.py`: filter, sort descending by `created_at`,
count, then slice `[(page-1)*limit : (page-1)*limit + limit]`. -/
def list_events (events : List EventRec) (page limit : Int)
    (status : Option String) : ListEventsResponse :=
  let evs := sortEvents (statusFilter status events)
  let total := evs.length
  let start := (page - 1) * limit
  ⟨pySlice evs start (start + limit), total, page⟩

/-- An `HTTPException(status_code, detail)` as raised by the handlers. -/
structure HTTPError where
  status_code : Nat
  detail : String
deriving DecidableEq

/-- `get_event` from `main.py`: linear scan for the first matching id,
404 otherwise. -/
def get_event (events : List EventRec) (event_id : Nat) :
    Except HTTPError EventRec :=
  match events.find? (fun e => e.id == event_id) with
  | some e => .ok e
  | none => .error ⟨404, "Event not found"⟩

/-- The in-place mutation loop of `update_event`: set `status` and
`updated_at` on the first event with the given id, returning the updated
list and the updated event; `none` when no event matches. -/
def setStatusFirst (event_id : Nat) (st now : String) :
    List EventRec → Option (List EventRec × EventRec)
  | [] => none
  | e :: rest =>
    if e.id = event_id then
      let e2 := { e with status := st, updated_at := some now }
      some (e2 :: rest, e2)
    else
      match setStatusFirst event_id st now rest with
      | some (l, ev) => some (e :: l, ev)
      | none => none

/-- The approval-set update inside `update_event`: when the new status is
`"approved"` and the event's `content_hash` is truthy (present and
non-empty), append the hash unless already present. -/
def addApproval (ev : EventRec) (st : String) (approvals : List String) :
    List String :=
  if st = "approved" then
    match ev.content_hash with
    | some h =>
      if h = "" then approvals
      else if h ∈ approvals then approvals else approvals ++ [h]
    | none => approvals
  else approvals

/-- `update_event` from `main.py`: mutate the first matching event, update the
approval set if needed, persist both collections; 404 (with the state left
unchanged) when the id is absent. -/
def update_event (now : String) (s : Store) (event_id : Nat) (st : String) :
    Store × Except HTTPError EventRec :=
  match setStatusFirst event_id st now s.events with
  | some (events2, ev) =>
    (⟨events2, addApproval ev st s.approvals⟩, .ok ev)
  | none => (s, .error ⟨404, "Event not found"⟩)

/-- `list_approvals` from `main.py`. -/
def list_approvals (s : Store) : List String := s.approvals

/-- `check_approval` from `main.py`: membership test of the hash. -/
def check_approval (s : Store) (content_hash : String) : Bool :=
  decide (content_hash ∈ s.approvals)

/-- `GET /api/events` as a state-passing operation: it only reads
`events.json` (`load_json`), never writes. -/
def list_events_op (s : Store) (page limit : Int) (status : Option String) :
    Store × ListEventsResponse :=
  (s, list_events s.events page limit status)

/-- `GET /api/events/{id}` as a state-passing operation: read-only. -/
def get_event_op (s : Store) (event_id : Nat) :
    Store × Except HTTPError EventRec :=
  (s, get_event s.events event_id)

/-- `GET /api/approvals` as a state-passing operation: read-only. -/
def list_approvals_op (s : Store) : Store × List String :=
  (s, list_approvals s)

/-- `GET /api/approvals/check/{hash}` as a state-passing operation:
read-only. -/
def check_approval_op (s : Store) (content_hash : String) : Store × Bool :=
  (s, check_approval s content_hash)

/-- Whether a byte is a UTF-8 continuation byte (`0x80..0xBF`). -/
def contByte (b : Nat) : Bool := 0x80 ≤ b && b ≤ 0xBF

/-- Allowed first continuation byte after a three-byte lead, per the UTF-8
definition used by Python's decoder (`E0: A0..BF`, `ED: 80..9F`). -/
def cont1of3 (b c1 : Nat) : Bool :=
  if b = 0xE0 then 0xA0 ≤ c1 && c1 ≤ 0xBF
  else if b = 0xED then 0x80 ≤ c1 && c1 ≤ 0x9F
  else contByte c1

/-- Allowed first continuation byte after a four-byte lead
(`F0: 90..BF`, `F4: 80..8F`). -/
def cont1of4 (b c1 : Nat) : Bool :=
  if b = 0xF0 then 0x90 ≤ c1 && c1 ≤ 0xBF
  else if b = 0xF4 then 0x80 ≤ c1 && c1 ≤ 0x8F
  else contByte c1

/-- UTF-8 decoding as Python's codec performs it, parameterised by what an
invalid maximal subpart contributes to the output: `bad = []` models
`errors="ignore"`, `bad = [U+FFFD]` models `errors="replace"`. Each invalid
maximal subpart is dropped and scanning resumes at the offending byte. -/
def decodeUtf8Aux (bad : List Char) : Nat → List Nat → List Char
  | 0, _ => []
  | _, [] => []
  | fuel + 1, b :: rest =>
    if b < 0x80 then Char.ofNat b :: decodeUtf8Aux bad fuel rest
    else if b < 0xC2 then bad ++ decodeUtf8Aux bad fuel rest
    else if b ≤ 0xDF then
      match rest with
      | [] => bad
      | c1 :: rest1 =>
        if contByte c1 then
          Char.ofNat ((b - 0xC0) * 64 + (c1 - 0x80)) :: decodeUtf8Aux bad fuel rest1
        else bad ++ decodeUtf8Aux bad fuel (c1 :: rest1)
    else if b ≤ 0xEF then
      match rest with
      | [] => bad
      | c1 :: rest1 =>
        if cont1of3 b c1 then
          match rest1 with
          | [] => bad
          | c2 :: rest2 =>
            if contByte c2 then
              Char.ofNat (((b - 0xE0) * 64 + (c1 - 0x80)) * 64 + (c2 - 0x80)) ::
                decodeUtf8Aux bad fuel rest2
            else bad ++ decodeUtf8Aux bad fuel (c2 :: rest2)
        else bad ++ decodeUtf8Aux bad fuel (c1 :: rest1)
    else if b ≤ 0xF4 then
      match rest with
      | [] => bad
      | c1 :: rest1 =>
        if cont1of4 b c1 then
          match rest1 with
          | [] => bad
          | c2 :: rest2 =>
            if contByte c2 then
              match rest2 with
              | [] => bad
              | c3 :: rest3 =>
                if contByte c3 then
                  Char.ofNat ((((b - 0xF0) * 64 + (c1 - 0x80)) * 64 + (c2 - 0x80)) * 64
                      + (c3 - 0x80)) :: decodeUtf8Aux bad fuel rest3
                else bad ++ decodeUtf8Aux bad fuel (c3 :: rest3)
            else bad ++ decodeUtf8Aux bad fuel (c2 :: rest2)
        else bad ++ decodeUtf8Aux bad fuel (c1 :: rest1)
    else bad ++ decodeUtf8Aux bad fuel rest

/-- UTF-8 decoding of a byte list; the fuel of `decodeUtf8Aux` is the input
length, which always suffices since every step consumes at least one byte. -/
def decodeUtf8With (bad : List Char) (l : List Nat) : List Char :=
  decodeUtf8Aux bad l.length l

/-- Python `s.startswith(pre)`: the first `len(pre)` code points of `s`
equal `pre`. -/
def strStartsWith (s pre : String) : Bool :=
  s.data.take pre.data.length == pre.data

/-- Response schema of `POST /api/extract-text`. -/
structure ExtractTextResponse where
  text : String
  success : Bool
  error : Option String
deriving DecidableEq

/-- `extract_text` from `main.py`, taken at the point after `b64decode`:
`file_bytes` are the decoded payload bytes. The pdfplumber pipeline (open,
per-page `extract_text() or ""`, newline join) is abstracted as the oracle
`pdfPipeline`, which may raise; textual MIME types are decoded as UTF-8 with
`errors="ignore"`. -/
def extract_text (pdfPipeline : List Nat → Except String String)
    (file_bytes : List Nat) (mime_type : String) : ExtractTextResponse :=
  if mime_type = "application/pdf" then
    match pdfPipeline file_bytes with
    | .ok text => ⟨text.trim, true, none⟩
    | .error e => ⟨"", false, some e⟩
  else if strStartsWith mime_type "text/" || mime_type == "application/json" then
    ⟨String.mk (decodeUtf8With [] file_bytes), true, none⟩
  else
    ⟨"", false, some ("Unsupported: " ++ mime_type)⟩

/-- The decoding the claim describes for textual MIME types, following the
spec's words: base64-decoded bytes decoded as UTF-8 "substituting the Unicode
replacement character for invalid byte sequences rather than failing". -/
def decodeTextClaim (file_bytes : List Nat) : String :=
  String.mk (decodeUtf8With [Char.ofNat 0xFFFD] file_bytes)

/-! ### Helper lemmas -/

theorem take_congr {α : Type} : ∀ (l : List α) (m k : Nat),
    min m l.length = min k l.length → l.take m = l.take k
  | [], _, _ => fun _ => by simp
  | _ :: _, 0, 0 => fun _ => rfl
  | _ :: l, 0, k + 1 => fun h => by
    exact absurd h (by simp [Nat.succ_min_succ])
  | _ :: l, m + 1, 0 => fun h => by
    exact absurd h (by simp [Nat.succ_min_succ])
  | a :: l, m + 1, k + 1 => fun h => by
    simp only [List.length_cons] at h
    simp only [List.take_succ_cons, List.cons.injEq, true_and]
    exact take_congr l m k (by omega)

/-- A Python slice `l[a : a+b]` with non-negative `a` and `b` is
drop-then-take. -/
theorem pySlice_nonneg {α : Type} (l : List α) (a b : Int)
    (ha : 0 ≤ a) (hb : 0 ≤ b) :
    pySlice l a (a + b) = (l.drop a.toNat).take b.toNat := by
  have hab : 0 ≤ a + b := by omega
  simp only [pySlice, pyAdjustIndex, if_neg (by omega : ¬a < 0),
    if_neg (by omega : ¬a + b < 0)]
  have htn : (a + b).toNat = a.toNat + b.toNat := by omega
  by_cases hc : l.length ≤ a.toNat
  · have h1 : min a.toNat l.length = l.length := by omega
    rw [h1, List.drop_length, List.drop_eq_nil_of_le hc]
    simp
  · have h1 : min a.toNat l.length = a.toNat := by omega
    rw [h1]
    refine take_congr _ _ _ ?_
    rw [List.length_drop]
    omega

theorem sortEvents_perm (l : List EventRec) : List.Perm (sortEvents l) l :=
  List.perm_insertionSort eventLater l

theorem sortEvents_length (l : List EventRec) : (sortEvents l).length = l.length :=
  (sortEvents_perm l).length_eq

theorem sortEvents_sorted (l : List EventRec) :
    List.Sorted eventLater (sortEvents l) :=
  List.sorted_insertionSort eventLater l

/-- Re-updating the list produced by `setStatusFirst` finds the same event
(same id, same `content_hash`). -/
theorem setStatusFirst_again (eid : Nat) (st now st2 now2 : String)
    (l : List EventRec) :
    ∀ (l2 : List EventRec) (ev : EventRec),
      setStatusFirst eid st now l = some (l2, ev) →
      ∃ l3 ev2, setStatusFirst eid st2 now2 l2 = some (l3, ev2) ∧
        ev2.content_hash = ev.content_hash := by
  induction l with
  | nil => intro l2 ev h; simp [setStatusFirst] at h
  | cons e rest ih =>
    intro l2 ev h
    by_cases hid : e.id = eid
    · simp only [setStatusFirst, if_pos hid] at h
      rw [Option.some.injEq, Prod.mk.injEq] at h
      obtain ⟨h1, h2⟩ := h
      subst h1
      subst h2
      refine ⟨({ e with status := st2, updated_at := some now2 } : EventRec) :: rest,
        ({ e with status := st2, updated_at := some now2 } : EventRec), ?_, rfl⟩
      simp [setStatusFirst, hid]
    · simp only [setStatusFirst, if_neg hid] at h
      cases hrec : setStatusFirst eid st now rest with
      | none =>
        simp only [hrec] at h
        exact Option.noConfusion h
      | some p =>
        obtain ⟨l', ev'⟩ := p
        simp only [hrec] at h
        rw [Option.some.injEq, Prod.mk.injEq] at h
        obtain ⟨h1, h2⟩ := h
        subst h1
        subst h2
        obtain ⟨l3, ev2, h3, h4⟩ := ih l' ev' hrec
        exact ⟨e :: l3, ev2, by simp [setStatusFirst, if_neg hid, h3], h4⟩

/-- When no event has the requested id, `setStatusFirst` returns `none`. -/
theorem setStatusFirst_eq_none (eid : Nat) (st now : String) :
    ∀ l : List EventRec, (∀ e ∈ l, e.id ≠ eid) →
      setStatusFirst eid st now l = none
  | [] => fun _ => rfl
  | e :: rest => fun h => by
    have he : e.id ≠ eid := h e (by simp)
    simp only [setStatusFirst, if_neg he]
    rw [setStatusFirst_eq_none eid st now rest (fun x hx => h x (by simp [hx]))]

/-! ### Concrete fixtures used by witnesses and counterexamples -/

/-- An event with only id and creation timestamp varying. -/
def mkEv (i : Nat) (ts : String) : EventRec :=
  ⟨i, "u", "d", "prompt", "dt", "s", [], [], none, none, "pending", some ts, none⟩

/-- Five events with distinct timestamps, stored out of order. -/
def ex5 : List EventRec :=
  [mkEv 1 "2024-01-01", mkEv 4 "2024-01-04", mkEv 2 "2024-01-02",
   mkEv 5 "2024-01-05", mkEv 3 "2024-01-03"]

/-- A PII detector that redacts only the exact text "msg". -/
def piiOnMsg : Detector := fun t =>
  if t = "msg" then .ok true (some "<EMAIL_ADDRESS>") else .ok false none

/-- A secrets detector that fails only on the exact text "msg" (and therefore
passes on the PII-sanitized text `<EMAIL_ADDRESS>`). -/
def secretsOnMsg : Detector := fun t =>
  if t = "msg" then .ok true (some "masked") else .ok false none

/-- A PII detector that always redacts to a fixed output. -/
def piiAlwaysEmail : Detector := fun _ => .ok true (some "<EMAIL_ADDRESS>")

/-- A secrets detector that always fails with a fixed output. -/
def secretsAlwaysMasked : Detector := fun _ => .ok true (some "masked")

/-- A PII detector that always redacts to a phone-number tag. -/
def piiAlwaysPhone : Detector := fun _ => .ok true (some "<PHONE_NUMBER>")

/-- A PII detector whose call always raises. -/
def piiRaises : Detector := fun _ => .exn "pii down"

/-- A secrets detector whose call always raises. -/
def secretsRaises : Detector := fun _ => .exn "secrets down"

/-- A pdf pipeline oracle (never reached in the textual branches). -/
def pdfStub : List Nat → Except String String := fun _ => .error "stub"

/-- An event-creation payload carrying the message "msg". -/
def payloadMsg : EventCreate :=
  ⟨"http://x", "x.com", "prompt", "pii", "sum", [], some "h1", some "msg"⟩

/-- A store with one pending event carrying content hash "abc". -/
def storeAbc : Store :=
  ⟨[⟨1, "u", "d", "prompt", "dt", "s", [], [], some "abc", none, "pending",
     some "2024-01-01", none⟩], []⟩

/-! ### Claims -/

/-- C6: for every input text, if a detector invocation inside `/api/validate`
raises, the error is not propagated: the corresponding flag (`has_pii` or
`has_secrets`) is set and a diagnostic string containing the error message is
appended to the detections list. -/
theorem validateText_detector_error_flags_and_diagnostic
    (pii secrets : Detector) (text : String) :
    (∀ e, pii text = .exn e →
      (validate_text pii secrets text).has_pii = true ∧
      ("PII error: " ++ e) ∈ (validate_text pii secrets text).detections) ∧
    (∀ e, secrets ((piiStage pii text).2.1) = .exn e →
      (validate_text pii secrets text).has_secrets = true ∧
      ("Secrets error: " ++ e) ∈ (validate_text pii secrets text).detections) := by
  constructor
  · intro e he
    constructor
    · simp [validate_text, piiStage, he]
    · simp only [validate_text, piiStage, he]
      exact List.mem_append_left _ (by simp)
  · intro e he
    constructor
    · simp [validate_text, secretsStage, he]
    · simp only [validate_text, secretsStage, he]
      exact List.mem_append_right _ (by simp)

/-- C6 witness: both detectors raise on the concrete input "x". -/
theorem validateText_detector_error_flags_and_diagnostic_witness :
    (validate_text piiRaises secretsRaises "x").has_pii = true ∧
    ("PII error: " ++ "pii down") ∈ (validate_text piiRaises secretsRaises "x").detections ∧
    (validate_text piiRaises secretsRaises "x").has_secrets = true ∧
    ("Secrets error: " ++ "secrets down") ∈
      (validate_text piiRaises secretsRaises "x").detections := by
  obtain ⟨h1, h2⟩ :=
    validateText_detector_error_flags_and_diagnostic piiRaises secretsRaises "x"
  obtain ⟨a1, a2⟩ := h1 "pii down" rfl
  obtain ⟨b1, b2⟩ := h2 "secrets down" rfl
  exact ⟨a1, a2, b1, b2⟩

/-- C7: the sanitized text returned by `/api/validate` reflects the last
successful redaction step: if the secrets invocation raises it equals the
PII-stage sanitized text, and if both detector invocations raise it equals
the original input unmodified. -/
theorem validateText_sanitized_last_successful
    (pii secrets : Detector) (text : String) :
    (∀ e, secrets ((piiStage pii text).2.1) = .exn e →
      (validate_text pii secrets text).sanitized = (piiStage pii text).2.1) ∧
    (∀ e1 e2, pii text = .exn e1 → secrets text = .exn e2 →
      (validate_text pii secrets text).sanitized = text) := by
  constructor
  · intro e he
    simp [validate_text, secretsStage, he]
  · intro e1 e2 h1 h2
    have hp : (piiStage pii text).2.1 = text := by simp [piiStage, h1]
    simp [validate_text, secretsStage, hp, h2]

/-- C7 witness: both detectors raise on the concrete input "xyz" and the
sanitized output is the input unmodified. -/
theorem validateText_sanitized_last_successful_witness :
    (validate_text piiRaises secretsRaises "xyz").sanitized = "xyz" :=
  (validateText_sanitized_last_successful piiRaises secretsRaises "xyz").2
    "pii down" "secrets down" rfl rfl

/-- C9: the read operations `list_events`, `get_event`, `list_approvals` and
`check_approval` never modify the persisted state. -/
theorem read_ops_preserve_store (s : Store) (page limit : Int)
    (status : Option String) (eid : Nat) (h : String) :
    (list_events_op s page limit status).1 = s ∧
    (get_event_op s eid).1 = s ∧
    (list_approvals_op s).1 = s ∧
    (check_approval_op s h).1 = s :=
  ⟨rfl, rfl, rfl, rfl⟩

/-- C10: `list_events` does not clamp a non-positive page: with `page = 0`
the Python slice `[-limit : 0]` is empty, so the items list is empty while
`total` still reports the full filtered count. -/
theorem listEvents_page_zero_empty_items (events : List EventRec) (limit : Int)
    (status : Option String) (_hl : 1 ≤ limit) (_hne : events ≠ []) :
    (list_events events 0 limit status).items = [] ∧
    (list_events events 0 limit status).total = (statusFilter status events).length := by
  constructor
  · have h0 : ((0 : Int) - 1) * limit + limit = 0 := by ring
    simp only [list_events, pySlice, h0, pyAdjustIndex]
    simp
  · simp only [list_events]
    exact sortEvents_length _

/-- C10 witness: on the five stored events with `limit = 2`, `page = 0`
yields no items and total 5. -/
theorem listEvents_page_zero_empty_items_witness :
    (list_events ex5 0 2 none).items = [] ∧
    (list_events ex5 0 2 none).total = (statusFilter none ex5).length := by
  have h := listEvents_page_zero_empty_items ex5 2 none (by decide) (by decide)
  exact ⟨h.1, h.2⟩

/-- C3 counterexample: on the single byte `0xFF` with MIME type
`text/plain`, the code returns the empty string (`errors="ignore"` drops the
invalid byte) rather than the replacement-character decoding the claim
states, while still reporting success. -/
theorem extractText_ignore_not_replace_cex :
    (extract_text pdfStub [255] "text/plain").text = "" ∧
    decodeTextClaim [255] = String.mk [Char.ofNat 0xFFFD] ∧
    (extract_text pdfStub [255] "text/plain").text ≠ decodeTextClaim [255] ∧
    (extract_text pdfStub [255] "text/plain").success = true := by
  refine ⟨by decide, by decide, ?_, by decide⟩
  decide

/-- C3 amended: for every textual MIME type (`text/*` or `application/json`)
the extraction succeeds and the text is the payload bytes decoded as UTF-8
with invalid byte sequences dropped (`errors="ignore"`), never a decoding
failure — not replaced by U+FFFD as the claim states. -/
theorem extractText_textual_utf8_ignore
    (pdfPipeline : List Nat → Except String String) (file_bytes : List Nat)
    (mime_type : String)
    (hm : strStartsWith mime_type "text/" = true ∨ mime_type = "application/json") :
    extract_text pdfPipeline file_bytes mime_type =
      ⟨String.mk (decodeUtf8With [] file_bytes), true, none⟩ := by
  have hpdf : mime_type ≠ "application/pdf" := by
    intro hq
    subst hq
    rcases hm with hm | hm
    · exact absurd hm (by decide)
    · exact absurd hm (by decide)
  have hcond : (strStartsWith mime_type "text/" || mime_type == "application/json") = true := by
    rcases hm with hm | hm
    · simp [hm]
    · simp [hm]
  simp [extract_text, hpdf, hcond]

/-- C3 witness: a concrete `text/plain` payload decodes to "hi" with
success. -/
theorem extractText_textual_utf8_ignore_witness :
    extract_text pdfStub [104, 105] "text/plain" = ⟨"hi", true, none⟩ :=
  (extractText_textual_utf8_ignore pdfStub [104, 105] "text/plain"
    (Or.inl (by decide))).trans (by decide)

/-- C4: for `page ≥ 1` and `limit ≥ 1`, `list_events` filters by exact status
match, sorts descending by `created_at` (missing timestamps as `""`), returns
the slice starting at `(page-1)*limit` of length at most `limit`, and reports
`total` as the filtered count before pagination. -/
theorem listEvents_filter_sort_paginate (events : List EventRec)
    (page limit : Int) (status : Option String)
    (hp : 1 ≤ page) (hl : 1 ≤ limit) :
    (list_events events page limit status).items =
      ((sortEvents (statusFilter status events)).drop
        ((page - 1) * limit).toNat).take limit.toNat ∧
    (list_events events page limit status).total = (statusFilter status events).length ∧
    (list_events events page limit status).page = page ∧
    List.Sorted eventLater (sortEvents (statusFilter status events)) ∧
    List.Perm (sortEvents (statusFilter status events)) (statusFilter status events) ∧
    (list_events events page limit status).items.length ≤ limit.toNat := by
  have hs : 0 ≤ (page - 1) * limit :=
    mul_nonneg (by omega) (by omega)
  have hitems : (list_events events page limit status).items =
      ((sortEvents (statusFilter status events)).drop
        ((page - 1) * limit).toNat).take limit.toNat := by
    simp only [list_events]
    exact pySlice_nonneg _ _ _ hs (by omega)
  refine ⟨hitems, ?_, rfl, sortEvents_sorted _, sortEvents_perm _, ?_⟩
  · simp only [list_events]
    exact sortEvents_length _
  · rw [hitems]
    exact List.length_take_le _ _

/-- C4 witness: the theorem instantiated on five stored events with
`page = 1`, `limit = 2` and no status filter. -/
theorem listEvents_filter_sort_paginate_witness :
    (list_events ex5 1 2 none).items =
      ((sortEvents (statusFilter none ex5)).drop
        (((1 : Int) - 1) * 2).toNat).take (2 : Int).toNat ∧
    (list_events ex5 1 2 none).total = (statusFilter none ex5).length ∧
    (list_events ex5 1 2 none).page = 1 ∧
    List.Sorted eventLater (sortEvents (statusFilter none ex5)) ∧
    List.Perm (sortEvents (statusFilter none ex5)) (statusFilter none ex5) ∧
    (list_events ex5 1 2 none).items.length ≤ (2 : Int).toNat :=
  listEvents_filter_sort_paginate ex5 1 2 none (by decide) (by decide)

/-- The spec's worked example: with `limit = 2`, `page = 1` on five events
with distinct timestamps, exactly the two most recently created events come
back, with total 5. -/
theorem listEvents_example_two_most_recent :
    (list_events ex5 1 2 none).items = [mkEv 5 "2024-01-05", mkEv 4 "2024-01-04"] ∧
    (list_events ex5 1 2 none).total = 5 := by
  exact ⟨by decide, by decide⟩

/-- C8: for every id absent from the events collection, `get_event` and
`update_event` return the fixed 404 error, and the not-found `update_event`
leaves both the events collection and the approval set unchanged. -/
theorem notFound_get_update_404 (s : Store) (eid : Nat) (st now : String)
    (habs : ∀ e ∈ s.events, e.id ≠ eid) :
    get_event s.events eid = .error ⟨404, "Event not found"⟩ ∧
    update_event now s eid st = (s, .error ⟨404, "Event not found"⟩) := by
  constructor
  · have hf : s.events.find? (fun e => e.id == eid) = none := by
      rw [List.find?_eq_none]
      intro x hx
      simp [habs x hx]
    simp [get_event, hf]
  · have hn := setStatusFirst_eq_none eid st now s.events habs
    simp [update_event, hn]

/-- C8 witness: id 2 is absent from the one-event store. -/
theorem notFound_get_update_404_witness :
    get_event storeAbc.events 2 = .error ⟨404, "Event not found"⟩ ∧
    update_event "t1" storeAbc 2 "approved" = (storeAbc, .error ⟨404, "Event not found"⟩) :=
  notFound_get_update_404 storeAbc 2 "approved" "t1" (by decide)

/-- C5: on a state whose approval set satisfies its no-duplicates invariant,
approving an event whose record carries a non-empty content hash makes a
subsequent `check_approval` of that hash return true, and the insertion is
idempotent: approving twice leaves exactly one occurrence of the hash in
`list_approvals`. -/
theorem updateEvent_approved_adds_hash_idempotent
    (s : Store) (eid : Nat) (now now2 : String) (l2 : List EventRec)
    (ev : EventRec) (h : String)
    (hnodup : s.approvals.Nodup)
    (hfind : setStatusFirst eid "approved" now s.events = some (l2, ev))
    (hhash : ev.content_hash = some h) (hne : h ≠ "") :
    check_approval (update_event now s eid "approved").1 h = true ∧
    (list_approvals (update_event now s eid "approved").1).count h = 1 ∧
    (update_event now2 (update_event now s eid "approved").1 eid "approved").1.approvals =
      (update_event now s eid "approved").1.approvals ∧
    (list_approvals
      (update_event now2 (update_event now s eid "approved").1 eid "approved").1).count h = 1 := by
  have hA : addApproval ev "approved" s.approvals
      = if h ∈ s.approvals then s.approvals else s.approvals ++ [h] := by
    simp [addApproval, hhash, hne]
  have hmem : h ∈ addApproval ev "approved" s.approvals := by
    rw [hA]
    by_cases hc : h ∈ s.approvals
    · simp [hc]
    · simp [hc]
  have hcount : (addApproval ev "approved" s.approvals).count h = 1 := by
    rw [hA]
    by_cases hc : h ∈ s.approvals
    · rw [if_pos hc]
      exact List.count_eq_one_of_mem hnodup hc
    · rw [if_neg hc, List.count_append]
      simp [List.count_eq_zero_of_not_mem hc]
  have hS1 : (update_event now s eid "approved").1
      = ⟨l2, addApproval ev "approved" s.approvals⟩ := by
    simp [update_event, hfind]
  obtain ⟨l3, ev2, h3, h4⟩ :=
    setStatusFirst_again eid "approved" now "approved" now2 s.events l2 ev hfind
  have hhash2 : ev2.content_hash = some h := h4.trans hhash
  have hA2gen : ∀ ap : List String, h ∈ ap → addApproval ev2 "approved" ap = ap := by
    intro ap hin
    simp [addApproval, hhash2, hne, hin]
  have hA2 : addApproval ev2 "approved" (addApproval ev "approved" s.approvals)
      = addApproval ev "approved" s.approvals := hA2gen _ hmem
  have hS2 : (update_event now2
        (⟨l2, addApproval ev "approved" s.approvals⟩ : Store) eid "approved").1
      = ⟨l3, addApproval ev2 "approved" (addApproval ev "approved" s.approvals)⟩ := by
    simp [update_event, h3]
  refine ⟨?_, ?_, ?_, ?_⟩
  · rw [hS1]
    exact decide_eq_true hmem
  · rw [hS1]
    exact hcount
  · rw [hS1, hS2, hA2]
  · rw [hS1, hS2, hA2]
    exact hcount

/-- C5 witness: the event with id 1 and hash "abc", approved twice. -/
theorem updateEvent_approved_adds_hash_idempotent_witness :
    check_approval (update_event "t1" storeAbc 1 "approved").1 "abc" = true ∧
    (list_approvals (update_event "t1" storeAbc 1 "approved").1).count "abc" = 1 ∧
    (update_event "t2" (update_event "t1" storeAbc 1 "approved").1 1 "approved").1.approvals =
      (update_event "t1" storeAbc 1 "approved").1.approvals ∧
    (list_approvals
      (update_event "t2" (update_event "t1" storeAbc 1 "approved").1 1 "approved").1).count "abc" = 1 :=
  updateEvent_approved_adds_hash_idempotent storeAbc 1 "t1" "t2"
    [⟨1, "u", "d", "prompt", "dt", "s", [], [], some "abc", none, "approved",
      some "2024-01-01", some "t1"⟩]
    ⟨1, "u", "d", "prompt", "dt", "s", [], [], some "abc", none, "approved",
      some "2024-01-01", some "t1"⟩
    "abc" (by decide) (by decide) (by decide) (by decide)

/-- C1 counterexample: with a PII detector that redacts exactly the text
"msg" and a secrets detector that fails on "msg" but passes on the sanitized
text, `/api/validate` yields `["EMAIL_ADDRESS"]` while `create_event` stores
`["EMAIL_ADDRESS", "SECRETS"]` for the same message: the create path invokes
the secrets detector on the original message, not on the sanitized text. -/
theorem createEvent_secrets_on_original_cex :
    (validate_text piiOnMsg secretsOnMsg "msg").detections = ["EMAIL_ADDRESS"] ∧
    create_event_detections piiOnMsg secretsOnMsg (some "msg")
      = ["EMAIL_ADDRESS", "SECRETS"] ∧
    payloadMsg.message = some "msg" ∧
    (create_event piiOnMsg secretsOnMsg "t0" ⟨[], []⟩ payloadMsg).2.guardrails_detections
      ≠ (validate_text piiOnMsg secretsOnMsg "msg").detections := by
  exact ⟨by decide, by decide, by decide, by decide⟩

/-- C1 amended: `create_event` invokes both detectors on the original
message and swallows exceptions without diagnostics; the stored
`guardrails_detections` equals the Detection Adapter's detections whenever
neither invocation raises, the failing PII detector returns a non-empty
redacted output, and the secrets detector reports the same verdict on the
original message as on the sanitized text. -/
theorem createEvent_detections_match_validate_amended
    (pii secrets : Detector) (m : String) (hne : m ≠ "")
    (failed : Bool) (vo : Option String) (hp : pii m = .ok failed vo)
    (hvo : failed = true → ∃ v, vo = some v ∧ v ≠ "")
    (sf : Bool) (svo svo2 : Option String)
    (hs1 : secrets m = .ok sf svo)
    (hs2 : secrets ((piiStage pii m).2.1) = .ok sf svo2) :
    create_event_detections pii secrets (some m)
      = (validate_text pii secrets m).detections := by
  cases failed with
  | false =>
    have hstage : piiStage pii m = (false, m, []) := by simp [piiStage, hp]
    rw [hstage] at hs2
    cases sf with
    | false =>
      simp [create_event_detections, hne, hp, validate_text, hstage,
        secretsStage, hs2, piiCreateTags]
    | true =>
      simp [create_event_detections, hne, hp, validate_text, hstage,
        secretsStage, hs2, piiCreateTags]
  | true =>
    obtain ⟨v, hv, hvne⟩ := hvo rfl
    subst hv
    have hpy : pyOrStr (some v) m = v := by simp [pyOrStr, hvne]
    have hstage : piiStage pii m = (true, v, piiCreateTags true (some v)) := by
      simp [piiStage, hp, hpy, piiCreateTags]
    rw [hstage] at hs2
    cases sf with
    | false =>
      simp [create_event_detections, hne, hp, validate_text, hstage,
        secretsStage, hs1, hs2, piiCreateTags]
    | true =>
      simp [create_event_detections, hne, hp, validate_text, hstage,
        secretsStage, hs1, hs2, piiCreateTags]

/-- C1 amended witness: constant detectors agree on the original and the
sanitized text, so the two detection lists coincide. -/
theorem createEvent_detections_match_validate_amended_witness :
    create_event_detections piiAlwaysEmail secretsAlwaysMasked (some "hello")
      = (validate_text piiAlwaysEmail secretsAlwaysMasked "hello").detections :=
  createEvent_detections_match_validate_amended piiAlwaysEmail secretsAlwaysMasked
    "hello" (by decide) true (some "<EMAIL_ADDRESS>") rfl
    (fun _ => ⟨"<EMAIL_ADDRESS>", rfl, by decide⟩)
    true (some "masked") (some "masked") rfl rfl

/-- C2 counterexample: a payload whose message makes the secrets invocation
raise still stores the PII-stage categories: `guardrails_detections` is
`["PHONE_NUMBER"]`, not the empty sequence the claim states. -/
theorem createEvent_exception_nonempty_detections_cex :
    secretsRaises "msg" = .exn "secrets down" ∧
    payloadMsg.message = some "msg" ∧
    (create_event piiAlwaysPhone secretsRaises "t0" ⟨[], []⟩ payloadMsg).2.guardrails_detections
      = ["PHONE_NUMBER"] ∧
    ["PHONE_NUMBER"] ≠ ([] : List String) := by
  exact ⟨rfl, rfl, by decide, by decide⟩

/-- C2 amended: when a detector invocation raises, `create_event` still
succeeds (the event is appended with status "pending") and the detections
accumulated before the exception are kept: a raising PII invocation yields
the empty list, a raising secrets invocation keeps exactly the PII-stage
categories; no diagnostic tag is recorded. -/
theorem createEvent_exception_truncates_detections
    (pii secrets : Detector) (now : String) (s : Store) (data : EventCreate)
    (m : String) (hm : data.message = some m) (hne : m ≠ "") :
    ((create_event pii secrets now s data).1.events
      = s.events ++ [(create_event pii secrets now s data).2]) ∧
    (create_event pii secrets now s data).2.status = "pending" ∧
    (∀ e, pii m = .exn e →
      (create_event pii secrets now s data).2.guardrails_detections = []) ∧
    (∀ failed vo e, pii m = .ok failed vo → secrets m = .exn e →
      (create_event pii secrets now s data).2.guardrails_detections
        = piiCreateTags failed vo) := by
  refine ⟨rfl, rfl, ?_, ?_⟩
  · intro e he
    simp [create_event, create_event_detections, hm, hne, he]
  · intro failed vo e hok he
    simp [create_event, create_event_detections, hm, hne, hok, he]

/-- C2 amended witness: the PII stage detects a phone number, then the
secrets invocation raises; the created event keeps the PII category. -/
theorem createEvent_exception_truncates_detections_witness :
    ((create_event piiAlwaysPhone secretsRaises "t0" ⟨[], []⟩ payloadMsg).1.events
      = ([] : List EventRec) ++ [(create_event piiAlwaysPhone secretsRaises "t0" ⟨[], []⟩ payloadMsg).2]) ∧
    (create_event piiAlwaysPhone secretsRaises "t0" ⟨[], []⟩ payloadMsg).2.status = "pending" ∧
    (create_event piiAlwaysPhone secretsRaises "t0" ⟨[], []⟩ payloadMsg).2.guardrails_detections
      = piiCreateTags true (some "<PHONE_NUMBER>") := by
  have h := createEvent_exception_truncates_detections piiAlwaysPhone secretsRaises
    "t0" ⟨[], []⟩ payloadMsg "msg" rfl (by decide)
  exact ⟨h.1, h.2.1, h.2.2.2 true (some "<PHONE_NUMBER>") "secrets down" rfl rfl⟩

end Jetstream
